import Mathlib

/-!
Verification of the question evaluator (src/main.py) and the console/file
logger (src/utils/logger.py).

Modelling conventions:
* Python strings are Lean `String`s; `str.lower` is modelled by mapping
  `Char.toLower` over the characters (ASCII case mapping, which is faithful
  for the ASCII needle "life" tested by the evaluator).
* A Python `raise ValueError(m)` is modelled as `Except.error` carrying the
  message `m`.
-/

namespace MainPy

/-- Model of Python `str.lower()` (ASCII case mapping). -/
def pyLower (s : String) : String := ⟨s.data.map Char.toLower⟩

/-- Model of the Python substring test `needle in hay`. -/
def inSubstr (needle hay : List Char) : Bool :=
  hay.tails.any (fun t => needle.isPrefixOf t)

/-- The characters of the needle "life". -/
def lifeChars : List Char := ['l', 'i', 'f', 'e']

/-- src/main.py, `get_meaning_of_life`: returns 42 when the lowercased
question contains the substring "life", otherwise raises
`ValueError("Question not deep enough")`. -/
def get_meaning_of_life (question : String) : Except String Int :=
  if inSubstr lifeChars (pyLower question).data then
    Except.ok 42
  else
    Except.error "Question not deep enough"

/-- A question "contains the substring life in some letter case": it splits
as `pre ++ mid ++ post` where `mid` lowercases to the letters of "life". -/
def ContainsLifeCI (q : String) : Prop :=
  ∃ pre mid post : List Char,
    q.data = pre ++ mid ++ post ∧ mid.map Char.toLower = lifeChars

end MainPy

namespace LoggerPy

/-- Model of the Python values the logger formats (src/utils/logger.py):
strings, ints, bools, None, lists, dicts with string keys (the shape of
JSON-style payloads; `sanitize` coerces keys with `str(k)`, identity here),
and custom objects carrying their class name and their `str()` rendering.
Floats, tuples, and objects whose `str()` raises are outside the model. -/
inductive PyVal where
  | str (s : String)
  | int (n : Int)
  | bool (b : Bool)
  | none
  | list (xs : List PyVal)
  | dict (kvs : List (String × PyVal))
  | obj (className : String) (strRepr : String)

mutual

/-- A value is JSON-serializable (so `json.dumps` does not raise TypeError)
exactly when it contains no custom object. -/
def noObj : PyVal → Bool
  | .str _ => true
  | .int _ => true
  | .bool _ => true
  | .none => true
  | .list xs => noObjList xs
  | .dict kvs => noObjKVs kvs
  | .obj _ _ => false

def noObjList : List PyVal → Bool
  | [] => true
  | x :: xs => noObj x && noObjList xs

def noObjKVs : List (String × PyVal) → Bool
  | [] => true
  | kv :: kvs => noObj kv.2 && noObjKVs kvs

end

/-- An ASCII apostrophe, kept out of string literals. -/
def QUOTE : String := String.singleton (Char.ofNat 39)

/-- Left curly brace as a string. -/
def LB : String := "\x7b"

/-- Right curly brace as a string. -/
def RB : String := "\x7d"

mutual

/-- Model of Python `repr` on the modelled values (string escaping inside
`repr` is simplified to plain quoting; it only feeds dead fallback paths). -/
def pyRepr : PyVal → String
  | .str s => QUOTE ++ s ++ QUOTE
  | .int n => toString n
  | .bool b => if b then "True" else "False"
  | .none => "None"
  | .list xs => "[" ++ pyReprList xs ++ "]"
  | .dict kvs => LB ++ pyReprKVs kvs ++ RB
  | .obj _ sr => sr

def pyReprList : List PyVal → String
  | [] => ""
  | [x] => pyRepr x
  | x :: y :: xs => pyRepr x ++ ", " ++ pyReprList (y :: xs)

def pyReprKVs : List (String × PyVal) → String
  | [] => ""
  | [kv] => QUOTE ++ kv.1 ++ QUOTE ++ ": " ++ pyRepr kv.2
  | kv :: kv2 :: kvs =>
    QUOTE ++ kv.1 ++ QUOTE ++ ": " ++ pyRepr kv.2 ++ ", " ++ pyReprKVs (kv2 :: kvs)

end

/-- Model of Python `str()` on the modelled values. -/
def pyStr : PyVal → String
  | .str s => s
  | .obj _ sr => sr
  | v => pyRepr v

mutual

/-- src/utils/logger.py, `sanitize`: convert non-serializable values to
string representations; custom objects become "ClassName(value)". -/
def sanitize : PyVal → PyVal
  | .str s => .str s
  | .int n => .int n
  | .bool b => .bool b
  | .none => .none
  | .list xs => .list (sanitizeList xs)
  | .dict kvs => .dict (sanitizeKVs kvs)
  | .obj cn sr => .str (cn ++ "(" ++ sr ++ ")")

def sanitizeList : List PyVal → List PyVal
  | [] => []
  | x :: xs => sanitize x :: sanitizeList xs

def sanitizeKVs : List (String × PyVal) → List (String × PyVal)
  | [] => []
  | kv :: kvs => (kv.1, sanitize kv.2) :: sanitizeKVs kvs

end

/-- Code-point lexicographic order on character lists: the order Python uses
to compare strings when `sorted` ranks dict keys. -/
def charsLe : List Char → List Char → Bool
  | [], _ => true
  | _ :: _, [] => false
  | a :: as, b :: bs => if a < b then true else if b < a then false else charsLe as bs

/-- Key comparison for sorting rendered dict entries. -/
def entryLe (a b : String × String) : Bool := charsLe a.1.data b.1.data

/-- Insertion step of the stable sort over rendered dict entries. -/
def insertEntry (p : String × String) : List (String × String) → List (String × String)
  | [] => [p]
  | q :: qs => if entryLe p q then p :: q :: qs else q :: insertEntry p qs

/-- Stable sort by key of the rendered dict entries: models the
`sort_keys=True` ordering of `json.dumps`. -/
def sortEntries : List (String × String) → List (String × String)
  | [] => []
  | p :: ps => insertEntry p (sortEntries ps)

/-- Hex digit character (lower case), as emitted by JSON escapes. -/
def hexChar (n : Nat) : Char :=
  if n < 10 then Char.ofNat (48 + n) else Char.ofNat (87 + n)

/-- Four-digit hex rendering of a 16-bit code unit. -/
def u16hex (n : Nat) : String :=
  ⟨[hexChar (n / 4096 % 16), hexChar (n / 256 % 16), hexChar (n / 16 % 16),
    hexChar (n % 16)]⟩

/-- JSON escaping of one character, as `json.dumps` does with the default
`ensure_ascii=True`. -/
def escChar (c : Char) : String :=
  if c = '"' then "\\\""
  else if c = '\\' then "\\\\"
  else if c = '\n' then "\\n"
  else if c = '\t' then "\\t"
  else if c = '\r' then "\\r"
  else if c = Char.ofNat 8 then "\\b"
  else if c = Char.ofNat 12 then "\\f"
  else if c.toNat < 32 then "\\u" ++ u16hex c.toNat
  else if c.toNat < 127 then String.singleton c
  else if c.toNat < 65536 then "\\u" ++ u16hex c.toNat
  else
    "\\u" ++ u16hex (55296 + (c.toNat - 65536) / 1024) ++
      "\\u" ++ u16hex (56320 + (c.toNat - 65536) % 1024)

/-- JSON quoting of a string. -/
def jsonQuote (s : String) : String :=
  "\"" ++ String.join (s.data.map escChar) ++ "\""

/-- Indentation for `json.dumps(..., indent=4)` at a nesting level. -/
def spaces (n : Nat) : String := ⟨List.replicate n ' '⟩

/-- Join already-rendered dict entries at a nesting level. -/
def joinEntries (lvl : Nat) : List (String × String) → String
  | [] => ""
  | [p] => spaces (4 * lvl) ++ jsonQuote p.1 ++ ": " ++ p.2
  | p :: q :: rest =>
    spaces (4 * lvl) ++ jsonQuote p.1 ++ ": " ++ p.2 ++ ",\n" ++
      joinEntries lvl (q :: rest)

/-- Join already-rendered list items at a nesting level. -/
def joinItems (lvl : Nat) : List String → String
  | [] => ""
  | [r] => spaces (4 * lvl) ++ r
  | r :: s :: rest => spaces (4 * lvl) ++ r ++ ",\n" ++ joinItems lvl (s :: rest)

mutual

/-- Rendering of a serializable value by `json.dumps(o, indent=4,
sort_keys=True)`. Each dict renders its entries in the original order and
then sorts the (key, rendered value) pairs by key: since the comparison
only reads keys and rendering a value ignores its position, this produces
the same text as sorting the entries first. -/
def renderJ (lvl : Nat) : PyVal → String
  | .str s => jsonQuote s
  | .int n => toString n
  | .bool b => if b then "true" else "false"
  | .none => "null"
  | .obj _ _ => ""
  | .list [] => "[]"
  | .list (x :: xs) =>
    "[\n" ++ joinItems (lvl + 1) (renderItems (lvl + 1) (x :: xs)) ++ "\n" ++
      spaces (4 * lvl) ++ "]"
  | .dict [] => LB ++ RB
  | .dict (kv :: kvs) =>
    LB ++ "\n" ++
      joinEntries (lvl + 1) (sortEntries (renderKVs (lvl + 1) (kv :: kvs))) ++
      "\n" ++ spaces (4 * lvl) ++ RB

def renderItems (lvl : Nat) : List PyVal → List String
  | [] => []
  | x :: xs => renderJ lvl x :: renderItems lvl xs

def renderKVs (lvl : Nat) : List (String × PyVal) → List (String × String)
  | [] => []
  | kv :: kvs => (kv.1, renderJ lvl kv.2) :: renderKVs lvl kvs

end

/-- Python exception kinds relevant to the formatting pipeline. -/
inductive PyExc where
  | typeError
  | valueError
deriving DecidableEq

/-- Model of `json.dumps(o, indent=4, sort_keys=True)`: raises TypeError on
values that contain a custom object, otherwise renders the JSON text. -/
def json_dumpsE (v : PyVal) : Except PyExc String :=
  if noObj v then Except.ok (renderJ 0 v) else Except.error PyExc.typeError

/-- Modelled from html.parser.HTMLParser as used by `strip_tags`
(src/utils/logger.py lines 14-35): the MLStripper keeps only the data
segments, so tag spans between < and > are dropped. Entity-reference
conversion and malformed-markup recovery are simplified away. -/
def stripTagsAux : Bool → List Char → List Char
  | _, [] => []
  | false, c :: cs =>
    if c = '<' then stripTagsAux true cs else c :: stripTagsAux false cs
  | true, c :: cs =>
    if c = '>' then stripTagsAux false cs else stripTagsAux true cs

/-- src/utils/logger.py, `strip_tags`. -/
def strip_tags (s : String) : String := ⟨stripTagsAux false s.data⟩

/-- The test `"html" in o` used by `pprint` to decide that a string is
markup. -/
def hasHtml (s : String) : Bool := MainPy.inSubstr ['h', 't', 'm', 'l'] s.data

/-- Model of the Python slice `s[:n]`. -/
def pyTake (s : String) (n : Nat) : String := ⟨s.data.take n⟩

/-- Left curly brace as a character. -/
def lbraceChar : Char := Char.ofNat 123

/-- Right curly brace as a character. -/
def rbraceChar : Char := Char.ofNat 125

/-- JSON whitespace. -/
def isWs (c : Char) : Bool := c == ' ' || c == '\t' || c == '\n' || c == '\r'

/-- Drop leading JSON whitespace. -/
def skipWs : List Char → List Char
  | [] => []
  | c :: cs => if isWs c then skipWs cs else c :: cs

/-- ASCII digit test. -/
def isDigitCh (c : Char) : Bool :=
  decide (48 ≤ c.toNat) && decide (c.toNat ≤ 57)

/-- Accumulate a decimal number from digit characters. -/
def digitsToNat (acc : Nat) : List Char → Nat
  | [] => acc
  | c :: cs => digitsToNat (acc * 10 + (c.toNat - 48)) cs

/-- Hex digit value. -/
def hexVal (c : Char) : Option Nat :=
  if isDigitCh c then some (c.toNat - 48)
  else if decide (97 ≤ c.toNat) && decide (c.toNat ≤ 102) then some (c.toNat - 87)
  else if decide (65 ≤ c.toNat) && decide (c.toNat ≤ 70) then some (c.toNat - 55)
  else none

/-- Decode a single-character JSON string escape. -/
def escDecode (e : Char) : Option Char :=
  if e = '"' then some '"'
  else if e = '\\' then some '\\'
  else if e = '/' then some '/'
  else if e = 'b' then some (Char.ofNat 8)
  else if e = 'f' then some (Char.ofNat 12)
  else if e = 'n' then some '\n'
  else if e = 'r' then some '\r'
  else if e = 't' then some '\t'
  else none

/-- Parse the body of a JSON string (after the opening quote): returns the
decoded characters and the input after the closing quote. Fuel bounds the
recursion; surrogate-pair recombination is simplified to a single unit. -/
def parseStr : Nat → List Char → Option (List Char × List Char)
  | 0, _ => none
  | _ + 1, [] => none
  | fuel + 1, c :: cs =>
    if c = '"' then some ([], cs)
    else if c = '\\' then
      match cs with
      | [] => none
      | e :: cs2 =>
        if e = 'u' then
          match cs2 with
          | a :: b :: c3 :: d :: rest =>
            match hexVal a, hexVal b, hexVal c3, hexVal d with
            | some ha, some hb, some hc, some hd =>
              match parseStr fuel rest with
              | some (s, r) =>
                some (Char.ofNat (((ha * 16 + hb) * 16 + hc) * 16 + hd) :: s, r)
              | none => none
            | _, _, _, _ => none
          | _ => none
        else
          match escDecode e with
          | some ch =>
            match parseStr fuel cs2 with
            | some (s, r) => some (ch :: s, r)
            | none => none
          | none => none
    else
      match parseStr fuel cs with
      | some (s, r) => some (c :: s, r)
      | none => none

mutual

/-- A parsed JSON document: the shape of every value `json.loads` can
return (no custom objects). -/
inductive J where
  | null
  | jb (b : Bool)
  | ji (n : Int)
  | js (s : String)
  | ja (xs : JList)
  | jo (ms : JMembers)

/-- Spine of a JSON array. -/
inductive JList where
  | nil
  | cons (hd : J) (tl : JList)

/-- Spine of a JSON object (string keys). -/
inductive JMembers where
  | nil
  | cons (k : String) (v : J) (tl : JMembers)

end

mutual

/-- The Python value `json.loads` returns for a parsed document. -/
def J.toPy : J → PyVal
  | .null => .none
  | .jb b => .bool b
  | .ji n => .int n
  | .js s => .str s
  | .ja xs => .list xs.toPy
  | .jo ms => .dict ms.toPy

def JList.toPy : JList → List PyVal
  | .nil => []
  | .cons hd tl => hd.toPy :: tl.toPy

def JMembers.toPy : JMembers → List (String × PyVal)
  | .nil => []
  | .cons k v tl => (k, v.toPy) :: tl.toPy

end

/-- Finish parsing a JSON number: the model covers integers only, so a
following fraction or exponent marker makes the parse fail. -/
def numTail (n : Int) (r : List Char) : Option (J × List Char) :=
  match r with
  | c :: _ =>
    if c == '.' || c == 'e' || c == 'E' then none else some (.ji n, r)
  | [] => some (.ji n, [])

/-- Parse a JSON integer literal. -/
def parseNum (cs : List Char) : Option (J × List Char) :=
  match cs with
  | '-' :: rest =>
    match rest.takeWhile isDigitCh, rest.dropWhile isDigitCh with
    | [], _ => none
    | ds, r => numTail (-(digitsToNat 0 ds : Int)) r
  | _ =>
    match cs.takeWhile isDigitCh, cs.dropWhile isDigitCh with
    | [], _ => none
    | ds, r => numTail (digitsToNat 0 ds : Int) r

mutual

/-- Modelled from `json.loads` (the Python json module): recursive-descent
parse of one JSON value. Restrictions of the model: numbers are integers
(floats fail to parse) and fuel bounds nesting. -/
def parseVal : Nat → List Char → Option (J × List Char)
  | 0, _ => none
  | fuel + 1, cs =>
    match skipWs cs with
    | [] => none
    | c :: rest =>
      if c = 'n' then
        match rest with
        | 'u' :: 'l' :: 'l' :: r => some (.null, r)
        | _ => none
      else if c = 't' then
        match rest with
        | 'r' :: 'u' :: 'e' :: r => some (.jb true, r)
        | _ => none
      else if c = 'f' then
        match rest with
        | 'a' :: 'l' :: 's' :: 'e' :: r => some (.jb false, r)
        | _ => none
      else if c = '"' then
        match parseStr fuel rest with
        | some (s, r) => some (.js ⟨s⟩, r)
        | none => none
      else if c = '[' then
        match skipWs rest with
        | ']' :: r => some (.ja .nil, r)
        | r2 =>
          match parseElems fuel r2 with
          | some (xs, r) => some (.ja xs, r)
          | none => none
      else if c = lbraceChar then
        match skipWs rest with
        | d :: r3 =>
          if d = rbraceChar then some (.jo .nil, r3)
          else
            match parseMembers fuel (d :: r3) with
            | some (ms, r) => some (.jo ms, r)
            | none => none
        | [] => none
      else parseNum (c :: rest)

/-- Parse the elements of a nonempty JSON array, up to the closing bracket. -/
def parseElems : Nat → List Char → Option (JList × List Char)
  | 0, _ => none
  | fuel + 1, cs =>
    match parseVal fuel cs with
    | none => none
    | some (v, r) =>
      match skipWs r with
      | ',' :: r2 =>
        match parseElems fuel r2 with
        | some (vs, r3) => some (.cons v vs, r3)
        | none => none
      | ']' :: r2 => some (.cons v .nil, r2)
      | _ => none

/-- Parse the members of a nonempty JSON object, up to the closing brace. -/
def parseMembers : Nat → List Char → Option (JMembers × List Char)
  | 0, _ => none
  | fuel + 1, cs =>
    match skipWs cs with
    | '"' :: r =>
      match parseStr fuel r with
      | none => none
      | some (k, r2) =>
        match skipWs r2 with
        | ':' :: r3 =>
          match parseVal fuel r3 with
          | none => none
          | some (v, r4) =>
            match skipWs r4 with
            | d :: r5 =>
              if d = ',' then
                match parseMembers fuel r5 with
                | some (ms, r6) => some (.cons ⟨k⟩ v ms, r6)
                | none => none
              else if d = rbraceChar then some (.cons ⟨k⟩ v .nil, r5)
              else none
            | [] => none
        | _ => none
    | _ => none

end

/-- Model of `json.loads(s)`: parse one JSON document; anything else raises
ValueError, modelled as `none`. -/
def json_loads (s : String) : Option PyVal :=
  match parseVal (s.data.length + 1) s.data with
  | some (j, rest) => if (skipWs rest).isEmpty then some j.toPy else none
  | none => none

/-- The try/except ladder of `pprint` for dicts and lists (src/utils/logger.py
lines 62-73): try `json.dumps`; on TypeError (the only exception the model
raises there) retry on the sanitized value; on any remaining exception fall
back to `str(o)`. -/
def tryDump (o : PyVal) : Except PyExc String :=
  match json_dumpsE o with
  | Except.ok r => Except.ok r
  | Except.error _ =>
    match json_dumpsE (sanitize o) with
    | Except.ok r => Except.ok r
    | Except.error _ => Except.ok (pyStr o)

/-- src/utils/logger.py, `pprint`, with the Python exception flow explicit:
strings containing "html" are tag-stripped and truncated to 500 characters;
other strings are JSON round-tripped when they parse (a ValueError from
`json.loads` is caught and returns the string unchanged, while an exception
from the re-serialization would propagate); dicts and lists go through the
dumps/sanitize ladder; everything else is `str(o)`. -/
def pprintE : PyVal → Except PyExc String
  | .str s =>
    if hasHtml s then Except.ok (pyTake (strip_tags s) 500)
    else
      match json_loads s with
      | some v => json_dumpsE v
      | none => Except.ok s
  | .dict kvs => tryDump (.dict kvs)
  | .list xs => tryDump (.list xs)
  | v => Except.ok (pyStr v)

/-- Total rendering: `pprintE` never fails (theorem pprintE_ok below), so the
error branch is unreachable. -/
def pprint (o : PyVal) : String :=
  match pprintE o with
  | Except.ok s => s
  | Except.error _ => ""

/-- src/utils/logger.py, `Logger.COLORS` (ANSI codes). -/
def COLORS : List (String × String) :=
  [("error", "\x1b[91m"), ("warning", "\x1b[93m"), ("info", "\x1b[94m"),
   ("success", "\x1b[92m"), ("magenta", "\x1b[95m"), ("cyan", "\x1b[96m"),
   ("white", "\x1b[97m"), ("black", "\x1b[90m"), ("bold", "\x1b[1m"),
   ("underline", "\x1b[4m"), ("end", "\x1b[0m")]

/-- src/utils/logger.py, `Logger.EMOJIS`. -/
def EMOJIS : List (String × String) :=
  [("error", "🚨"), ("warning", "⚠️"), ("info", "ℹ️"), ("success", "✅"),
   ("magenta", "🔮"), ("cyan", "🪼"), ("white", "🏳"), ("black", "🏴")]

/-- Model of Python `dict.get(k, default)` on a literal string table. -/
def dictGet (d : List (String × String)) (k : String) (dflt : String) : String :=
  match d.lookup k with
  | some v => v
  | none => dflt

/-- src/utils/logger.py, `Logger.get_color`: the ANSI code, or "" for an
unknown message type. -/
def get_color (c : String) : String := dictGet COLORS c ""

/-- src/utils/logger.py, `Logger.get_emoji`: the emoji, or "" for an unknown
message type. -/
def get_emoji (c : String) : String := dictGet EMOJIS c ""

/-- Composition step of `Logger.format_message` over already-rendered parts:
each part is prefixed by the category color and bold, parts are joined by
newlines, and the whole is wrapped with emoji, timestamp and padding. The
timestamp is a parameter (the code reads the wall clock). -/
def composeMessage (parts : List String) (msg_type ts : String) : String :=
  "\n\n\n" ++ get_emoji msg_type ++ "  " ++ ts ++ "\n" ++ get_color msg_type ++
    String.intercalate "\n"
      (parts.map (fun p => get_color msg_type ++ dictGet COLORS "bold" "" ++ p)) ++
    dictGet COLORS "end" "" ++ "\n\n\n"

/-- Pretty-print every payload, propagating the first exception. -/
def pprintAllE : List PyVal → Except PyExc (List String)
  | [] => Except.ok []
  | m :: ms =>
    match pprintE m, pprintAllE ms with
    | Except.ok s, Except.ok rest => Except.ok (s :: rest)
    | Except.error e, _ => Except.error e
    | _, Except.error e => Except.error e

/-- src/utils/logger.py, `Logger.format_message`, with the exception flow
explicit. -/
def format_messageE (msgs : List PyVal) (msg_type ts : String) :
    Except PyExc String :=
  match pprintAllE msgs with
  | Except.ok parts => Except.ok (composeMessage parts msg_type ts)
  | Except.error e => Except.error e

/-- src/utils/logger.py, `Logger.format_message` (total form). -/
def format_message (msgs : List PyVal) (msg_type ts : String) : String :=
  composeMessage (msgs.map pprint) msg_type ts

/-- logging.INFO. -/
def LEVEL_INFO : Nat := 20

/-- logging.WARNING. -/
def LEVEL_WARNING : Nat := 30

/-- logging.ERROR. -/
def LEVEL_ERROR : Nat := 40

/-- `Logger.__init__` sets the logger level to logging.INFO. -/
def loggerLevel : Nat := LEVEL_INFO

/-- `Logger.__init__` sets the error.log FileHandler level to logging.ERROR. -/
def fileHandlerLevel : Nat := LEVEL_ERROR

/-- `Logger.__init__` sets the console StreamHandler level to logging.INFO. -/
def consoleHandlerLevel : Nat := LEVEL_INFO

/-- The severity operations of the Logger. -/
inductive LogOp where
  | error
  | warning
  | info
  | magic
  | water
  | white
  | black
  | success
deriving DecidableEq

/-- The logging level each severity operation emits its record at:
`Logger.error` calls `self.logger.error`, `Logger.warning` calls
`self.logger.warning`, every other operation calls `self.logger.info`. -/
def LogOp.level : LogOp → Nat
  | .error => LEVEL_ERROR
  | .warning => LEVEL_WARNING
  | _ => LEVEL_INFO

/-- The category (msg_type) each severity operation formats with. -/
def LogOp.msgType : LogOp → String
  | .error => "error"
  | .warning => "warning"
  | .info => "info"
  | .magic => "magenta"
  | .water => "cyan"
  | .white => "white"
  | .black => "black"
  | .success => "success"

/-- The two output destinations. -/
inductive Sink where
  | console
  | file
deriving DecidableEq

/-- Modelled from the logging module: a handler receives a record when the
logger passes it on (record level at or above the logger level) and the
record level is at or above the handler level. File sink. -/
def fileReceives (recLevel : Nat) : Bool :=
  decide (loggerLevel ≤ recLevel) && decide (fileHandlerLevel ≤ recLevel)

/-- Console sink threshold check, same record stream. -/
def consoleReceives (recLevel : Nat) : Bool :=
  decide (loggerLevel ≤ recLevel) && decide (consoleHandlerLevel ≤ recLevel)

/-- Dispatch of one log record to the sinks (file handler first, as added in
`Logger.__init__`). -/
def emitRecord (recLevel : Nat) (m : String) : List (Sink × String) :=
  (if fileReceives recLevel then [(Sink.file, m)] else []) ++
    (if consoleReceives recLevel then [(Sink.console, m)] else [])

/-- One severity-operation call: format the payloads, then route the record
by the two thresholds. -/
def logCall (op : LogOp) (msgs : List PyVal) (ts : String) :
    List (Sink × String) :=
  emitRecord op.level (format_message msgs op.msgType ts)

/-- The contents of error.log after appending the file-sink events of a
trace to its previous contents (the FileHandler is opened in append mode). -/
def fileAfter (init : String) (evts : List (Sink × String)) : String :=
  init ++ String.join ((evts.filter (fun e => e.1 == Sink.file)).map (fun e => e.2))

/-- src/utils/logger.py, `Logger.glitch`, the noise glyph set. -/
def glitched_chars : List String :=
  ["█", "▓", "▒", "░", "▄", "▀", "▐", "▌", "▄", "|", "/", "\\", "#", "@",
   "&", "?", "!"]

/-- src/utils/logger.py, `Logger.glitch`, the color palette names. -/
def glitch_colors : List String :=
  ["error", "success", "warning", "info", "magenta", "cyan"]

/-- One pseudo-random decision per message character: whether
`random.random() < intensity` fired, which glyph `random.choice` would pick,
and which palette color it would pick. Quantifying over all decision
streams covers every random stream and every intensity. -/
structure GlitchDecision where
  addNoise : Bool
  glyphIdx : Nat
  colorIdx : Nat

/-- One call to `Logger.stdout` during the glitch animation: either a noise
glyph or an actual message character (which it carries). -/
inductive GlitchWrite where
  | noise (txt : String)
  | msgChar (txt : String) (c : Char)

/-- The text a glitch write sends to the console stream. -/
def GlitchWrite.txt : GlitchWrite → String
  | .noise t => t
  | .msgChar t _ => t

/-- The noise-glyph write: white color, one glyph, color reset. -/
def noiseText (i : Nat) : String :=
  get_color "white" ++ glitched_chars.getD (i % glitched_chars.length) "" ++
    dictGet COLORS "end" ""

/-- The message-character write: a palette color, the character, reset. -/
def charText (j : Nat) (c : Char) : String :=
  get_color (glitch_colors.getD (j % glitch_colors.length) "") ++
    String.singleton c ++ dictGet COLORS "end" ""

/-- The writes `glitch` performs for one message character: with the coin
decision, first a noise glyph, then always the character itself. -/
def glitchChar (d : GlitchDecision) (c : Char) : List GlitchWrite :=
  (if d.addNoise then [GlitchWrite.noise (noiseText d.glyphIdx)] else []) ++
    [GlitchWrite.msgChar (charText d.colorIdx c) c]

/-- The writes for a character sequence, consuming the decision stream. -/
def glitchChars (ds : Nat → GlitchDecision) : Nat → List Char → List GlitchWrite
  | _, [] => []
  | i, c :: cs => glitchChar (ds i) c ++ glitchChars ds (i + 1) cs

/-- src/utils/logger.py, `Logger.glitch`: pretty-print each value, then emit
the characters of all values one by one with random noise inserted. -/
def glitchWrites (ds : Nat → GlitchDecision) (values : List PyVal) :
    List GlitchWrite :=
  glitchChars ds 0 ((values.map (fun v => (pprint v).data)).flatten)

/-- The sinked event trace of a glitch call: every write goes through
`Logger.stdout`, the console stream. -/
def glitchTrace (ds : Nat → GlitchDecision) (values : List PyVal) :
    List (Sink × String) :=
  (glitchWrites ds values).map (fun w => (Sink.console, w.txt))

/-- The actual message character of a write, when it is one. -/
def msgCharOf : GlitchWrite → Option Char
  | .noise _ => none
  | .msgChar _ c => some c

/-- Every noise write is immediately followed by a message-character write. -/
def noiseFollowed : List GlitchWrite → Bool
  | [] => true
  | GlitchWrite.noise _ :: GlitchWrite.msgChar _ _ :: rest => noiseFollowed rest
  | GlitchWrite.noise _ :: _ => false
  | GlitchWrite.msgChar _ _ :: rest => noiseFollowed rest

/-- Model of a tqdm progress bar object as constructed by
`Logger.progress`. -/
structure Tqdm (α : Type) where
  items : List α
  desc : String
  total : Option Nat
  unit : String
  ncols : Nat
  bar_format : String

/-- src/utils/logger.py, `Logger.progress`: wrap the iterable in a tqdm bar
with fixed unit, width and bar format. -/
def progress {α : Type} (iterable : List α) (desc : String)
    (total : Option Nat) : Tqdm α :=
  ⟨iterable, desc, total, "img", 80,
    "\x7bl_bar\x7d\x7bbar\x7d| \x7bn_fmt\x7d/\x7btotal_fmt\x7d [\x7belapsed\x7d<\x7bremaining\x7d]"⟩

/-- Modelled from the tqdm library: consuming the wrapper yields the
underlying items unchanged while rendering one updating progress line per
step to the console stream. -/
def Tqdm.consume {α : Type} (t : Tqdm α) : List α × List (Sink × String) :=
  (t.items,
    (List.range t.items.length).map
      (fun i => (Sink.console,
        t.desc ++ ": " ++ toString (i + 1) ++ "/" ++
          toString t.items.length)))

end LoggerPy

namespace MainPy

theorem inSubstr_iff (needle hay : List Char) :
    inSubstr needle hay = true ↔ ∃ pre post, hay = pre ++ needle ++ post := by
  unfold inSubstr
  rw [List.any_eq_true]
  constructor
  · rintro ⟨t, ht, hpre⟩
    rw [List.mem_tails] at ht
    rw [ List.isPrefixOf_iff_prefix] at hpre
    obtain ⟨post, hpost⟩ := hpre
    obtain ⟨pre, hpre'⟩ := ht
    exact ⟨pre, post, by rw [← hpre', ← hpost, List.append_assoc]⟩
  · rintro ⟨pre, post, rfl⟩
    refine ⟨needle ++ post, ?_, ?_⟩
    · rw [List.mem_tails]
      exact ⟨pre, by rw [List.append_assoc]⟩
    · rw [ List.isPrefixOf_iff_prefix]
      exact ⟨post, rfl⟩

theorem containsLifeCI_iff (q : String) :
    ContainsLifeCI q ↔ inSubstr lifeChars (pyLower q).data = true := by
  rw [inSubstr_iff]
  constructor
  · rintro ⟨pre, mid, post, hq, hmid⟩
    refine ⟨pre.map Char.toLower, post.map Char.toLower, ?_⟩
    show (q.data.map Char.toLower) = _
    rw [hq, List.map_append, List.map_append, hmid]
  · rintro ⟨pre, post, h⟩
    replace h : q.data.map Char.toLower = pre ++ (lifeChars ++ post) := by
      rw [← List.append_assoc]; exact h
    rw [List.map_eq_append_iff] at h
    obtain ⟨l1, l2, hsplit, hl1, h2⟩ := h
    rw [List.map_eq_append_iff] at h2
    obtain ⟨m1, m2, hsplit2, hm1, hm2⟩ := h2
    exact ⟨l1, m1, m2, by rw [hsplit, hsplit2, List.append_assoc], hm1⟩

end MainPy

/-- C1: for every input string that contains the substring "life" in any
letter case (with arbitrary other material around or between the rest of the
string), `get_meaning_of_life` returns 42. -/
theorem c1_life_question_returns_42 (q : String)
    (h : MainPy.ContainsLifeCI q) :
    MainPy.get_meaning_of_life q = Except.ok 42 := by
  have hb := (MainPy.containsLifeCI_iff q).mp h
  simp [MainPy.get_meaning_of_life, hb]

/-- Witness for C1 at the concrete input "LIFE". -/
theorem c1_witness : MainPy.get_meaning_of_life "LIFE" = Except.ok 42 :=
  c1_life_question_returns_42 "LIFE"
    ⟨[], ['L', 'I', 'F', 'E'], [], by decide, by decide⟩

/-- C2: for every input string that does not contain "life"
case-insensitively, the evaluator fails with exactly the message
"Question not deep enough", and it fails in no other case: every failure
carries that message and implies the substring was absent. -/
theorem c2_no_life_fails_with_exact_message (q : String) :
    (¬ MainPy.ContainsLifeCI q →
      MainPy.get_meaning_of_life q = Except.error "Question not deep enough") ∧
    (∀ e, MainPy.get_meaning_of_life q = Except.error e →
      e = "Question not deep enough" ∧ ¬ MainPy.ContainsLifeCI q) := by
  constructor
  · intro h
    have hb : MainPy.inSubstr MainPy.lifeChars (MainPy.pyLower q).data = false := by
      rw [Bool.eq_false_iff]
      intro hc
      exact h ((MainPy.containsLifeCI_iff q).mpr hc)
    simp [MainPy.get_meaning_of_life, hb]
  · intro e he
    by_cases hb : MainPy.inSubstr MainPy.lifeChars (MainPy.pyLower q).data = true
    · simp [MainPy.get_meaning_of_life, hb] at he
    · rw [Bool.not_eq_true] at hb
      simp only [MainPy.get_meaning_of_life, hb, Bool.false_eq_true, if_false,
        Except.error.injEq] at he
      refine ⟨he.symm, fun hc => ?_⟩
      rw [(MainPy.containsLifeCI_iff q).mp hc] at hb
      exact Bool.true_eq_false.mp hb

/-- Witness for C2 at the concrete input "What is love?". -/
theorem c2_witness :
    MainPy.get_meaning_of_life "What is love?" =
      Except.error "Question not deep enough" :=
  (c2_no_life_fails_with_exact_message "What is love?").1 (fun hc => by
    have hb := (MainPy.containsLifeCI_iff _).mp hc
    revert hb
    decide)

namespace LoggerPy

theorem perm_all {α : Type} {l1 l2 : List α} (h : l1.Perm l2) (p : α → Bool) :
    l1.all p = l2.all p := by
  cases hb : l2.all p with
  | true =>
    rw [List.all_eq_true] at *
    intro x hx
    exact hb x (h.mem_iff.mp hx)
  | false =>
    rw [Bool.eq_false_iff] at *
    intro hc
    rw [List.all_eq_true] at hc
    exact hb (List.all_eq_true.mpr (fun x hx => hc x (h.mem_iff.mpr hx)))

theorem fileAfter_all_console (init : String) (evts : List (Sink × String))
    (h : ∀ e ∈ evts, e.1 = Sink.console) : fileAfter init evts = init := by
  have hf : evts.filter (fun e => e.1 == Sink.file) = [] := by
    rw [List.filter_eq_nil_iff]
    intro e he
    rw [h e he]
    simp
  rw [fileAfter, hf]
  show init ++ String.join [] = init
  exact String.append_empty init

theorem logCall_file_unchanged (op : LogOp) (hf : fileReceives op.level = false)
    (msgs : List PyVal) (ts init : String) :
    fileAfter init (logCall op msgs ts) = init := by
  apply fileAfter_all_console
  intro e he
  simp only [logCall, emitRecord, hf, Bool.false_eq_true, if_false,
    List.nil_append] at he
  split at he
  · rw [List.mem_singleton] at he
    rw [he]
  · exact absurd he (List.not_mem_nil e)

end LoggerPy

/-- C3: every record emitted through a severity operation is routed by two
independent thresholds over the same record stream: the file handler (level
ERROR) receives it exactly when its level is error-and-above, the console
handler (level INFO) exactly when its level is info-and-above; a record
below error severity leaves the error.log contents unchanged. -/
theorem c3_two_threshold_routing (op : LoggerPy.LogOp)
    (msgs : List LoggerPy.PyVal) (ts init : String) :
    (LoggerPy.fileReceives op.level = decide (LoggerPy.LEVEL_ERROR ≤ op.level)) ∧
    (LoggerPy.consoleReceives op.level = decide (LoggerPy.LEVEL_INFO ≤ op.level)) ∧
    (op.level < LoggerPy.LEVEL_ERROR →
      LoggerPy.fileAfter init (LoggerPy.logCall op msgs ts) = init) := by
  refine ⟨?_, ?_, fun hlt => ?_⟩
  · cases op <;> decide
  · cases op <;> decide
  · apply LoggerPy.logCall_file_unchanged
    cases op
    · exact absurd hlt (by decide)
    all_goals decide

/-- Witness for C3: one warning call leaves previous error.log contents
intact. -/
theorem c3_witness :
    LoggerPy.fileAfter "old" (LoggerPy.logCall LoggerPy.LogOp.warning [] "ts") =
      "old" :=
  (c3_two_threshold_routing LoggerPy.LogOp.warning [] "ts" "old").2.2 (by decide)

/-- C7: a glitch call writes only to the console stream: every event of its
trace is a console event, and the error.log contents are unchanged by it, for
every payload and every decision stream (hence every intensity). -/
theorem c7_glitch_console_only (ds : Nat → LoggerPy.GlitchDecision)
    (values : List LoggerPy.PyVal) (init : String) :
    ((LoggerPy.glitchTrace ds values).all
      (fun e => e.1 == LoggerPy.Sink.console) = true) ∧
    LoggerPy.fileAfter init (LoggerPy.glitchTrace ds values) = init := by
  constructor
  · rw [List.all_eq_true]
    intro e he
    rw [LoggerPy.glitchTrace, List.mem_map] at he
    obtain ⟨w, _, rfl⟩ := he
    simp
  · apply LoggerPy.fileAfter_all_console
    intro e he
    rw [LoggerPy.glitchTrace, List.mem_map] at he
    obtain ⟨w, _, rfl⟩ := he
    rfl

/-- C8: consuming the progress wrapper yields exactly the items of the
original sequence, in order, and writes nothing to the file sink. -/
theorem c8_progress_passthrough (α : Type) (xs : List α) (d : String)
    (tot : Option Nat) (init : String) :
    (LoggerPy.progress xs d tot).consume.1 = xs ∧
    LoggerPy.fileAfter init (LoggerPy.progress xs d tot).consume.2 = init := by
  constructor
  · rfl
  · apply LoggerPy.fileAfter_all_console
    intro e he
    rw [LoggerPy.Tqdm.consume, List.mem_map] at he
    obtain ⟨i, _, rfl⟩ := he
    rfl

namespace LoggerPy

theorem glitchChars_stream (ds : Nat → GlitchDecision) (cs : List Char) :
    ∀ i : Nat,
      (glitchChars ds i cs).filterMap msgCharOf = cs ∧
      noiseFollowed (glitchChars ds i cs) = true := by
  induction cs with
  | nil => intro i; exact ⟨rfl, rfl⟩
  | cons c cs ih =>
    intro i
    constructor
    · rw [glitchChars, List.filterMap_append, (ih (i + 1)).1]
      cases h : (ds i).addNoise <;>
        simp [glitchChar, msgCharOf, h]
    · rw [glitchChars]
      cases h : (ds i).addNoise <;>
        simp only [glitchChar, h, if_true, if_false, List.cons_append,
          List.nil_append, List.singleton_append, Bool.false_eq_true,
          noiseFollowed] <;>
        exact (ih (i + 1)).2

end LoggerPy

/-- C10: in every glitch call the subsequence of actual message characters
written to the console equals, in order, exactly the characters of the
pretty-printed values; noise glyphs are only ever inserted immediately
before a message character, and no message character is dropped, duplicated
or replaced. -/
theorem c10_glitch_message_preserved (ds : Nat → LoggerPy.GlitchDecision)
    (values : List LoggerPy.PyVal) :
    (LoggerPy.glitchWrites ds values).filterMap LoggerPy.msgCharOf =
      (values.map (fun v => (LoggerPy.pprint v).data)).flatten ∧
    LoggerPy.noiseFollowed (LoggerPy.glitchWrites ds values) = true :=
  ⟨(LoggerPy.glitchChars_stream ds _ 0).1, (LoggerPy.glitchChars_stream ds _ 0).2⟩

namespace LoggerPy

theorem empty_append_str (s : String) : "" ++ s = s := rfl

theorem lookup_eq_none_of_not_contains (k : String) (l : List (String × String))
    (h : (l.map Prod.fst).contains k = false) : l.lookup k = none := by
  induction l with
  | nil => rfl
  | cons p ps ih =>
    simp only [List.map_cons, List.contains_cons, Bool.or_eq_false_iff,
      beq_eq_false_iff_ne, ne_eq] at h
    rw [List.lookup_cons]
    split
    · next heq => exact absurd (by simpa using heq) h.1
    · exact ih (by simpa using h.2)

end LoggerPy

/-- C9: for every msg_type that is not one of the known keys, both the color
code and the emoji resolve to the empty string, and format_message still
returns the composed message rendered without any decoration. -/
theorem c9_unknown_category_undecorated (mt : String)
    (msgs : List LoggerPy.PyVal) (ts : String)
    (h : (LoggerPy.COLORS.map Prod.fst).contains mt = false) :
    LoggerPy.get_color mt = "" ∧ LoggerPy.get_emoji mt = "" ∧
    LoggerPy.format_message msgs mt ts =
      "\n\n\n" ++ "  " ++ ts ++ "\n" ++
        String.intercalate "\n"
          ((msgs.map LoggerPy.pprint).map
            (fun p => LoggerPy.dictGet LoggerPy.COLORS "bold" "" ++ p)) ++
        LoggerPy.dictGet LoggerPy.COLORS "end" "" ++ "\n\n\n" := by
  have hc : LoggerPy.get_color mt = "" := by
    rw [LoggerPy.get_color, LoggerPy.dictGet,
      LoggerPy.lookup_eq_none_of_not_contains mt _ h]
  have hsub : ∀ x ∈ LoggerPy.EMOJIS.map Prod.fst,
      x ∈ LoggerPy.COLORS.map Prod.fst := by decide
  have hemE : (LoggerPy.EMOJIS.map Prod.fst).contains mt = false := by
    rw [Bool.eq_false_iff]
    intro hcon
    have hmem : mt ∈ LoggerPy.EMOJIS.map Prod.fst := List.elem_iff.mp hcon
    have h3 : (LoggerPy.COLORS.map Prod.fst).contains mt = true :=
      List.elem_iff.mpr (hsub mt hmem)
    rw [h3] at h
    exact Bool.true_eq_false.mp h
  have hem : LoggerPy.get_emoji mt = "" := by
    rw [LoggerPy.get_emoji, LoggerPy.dictGet,
      LoggerPy.lookup_eq_none_of_not_contains mt _ hemE]
  refine ⟨hc, hem, ?_⟩
  rw [LoggerPy.format_message, LoggerPy.composeMessage, hc, hem]
  simp only [LoggerPy.empty_append_str, String.append_empty]

/-- Witness for C9 at the unknown category "verbose". -/
theorem c9_witness :
    LoggerPy.get_color "verbose" = "" ∧ LoggerPy.get_emoji "verbose" = "" := by
  have h := c9_unknown_category_undecorated "verbose" [] "" (by decide)
  exact ⟨h.1, h.2.1⟩

/-- C5: a string payload that contains "html" (the code's markup test) is
tag-stripped and truncated to 500 characters; any other string is returned
unchanged unless it parses as JSON, in which case it is re-prettied — never
stripped or truncated. -/
theorem c5_markup_strip_and_truncate (s : String) :
    (LoggerPy.hasHtml s = true →
      LoggerPy.pprintE (LoggerPy.PyVal.str s) =
        Except.ok (LoggerPy.pyTake (LoggerPy.strip_tags s) 500)) ∧
    (LoggerPy.hasHtml s = false →
      LoggerPy.pprintE (LoggerPy.PyVal.str s) = Except.ok s ∨
      ∃ v, LoggerPy.json_loads s = some v ∧
        LoggerPy.pprintE (LoggerPy.PyVal.str s) = LoggerPy.json_dumpsE v) := by
  constructor
  · intro h
    simp [LoggerPy.pprintE, h]
  · intro h
    cases hl : LoggerPy.json_loads s with
    | some v =>
      right
      exact ⟨v, rfl, by simp [LoggerPy.pprintE, h, hl]⟩
    | none =>
      left
      simp [LoggerPy.pprintE, h, hl]

/-- Witness for C5 at the markup string "<p>html</p>". -/
theorem c5_witness :
    LoggerPy.pprintE (LoggerPy.PyVal.str "<p>html</p>") =
      Except.ok (LoggerPy.pyTake (LoggerPy.strip_tags "<p>html</p>") 500) :=
  (c5_markup_strip_and_truncate "<p>html</p>").1 (by decide)

namespace LoggerPy

mutual

theorem noObj_sanitize (v : PyVal) : noObj (sanitize v) = true := by
  cases v with
  | str s => simp [sanitize, noObj]
  | int n => simp [sanitize, noObj]
  | bool b => simp [sanitize, noObj]
  | none => simp [sanitize, noObj]
  | list xs =>
    simp only [sanitize, noObj]
    exact noObjList_sanitizeList xs
  | dict kvs =>
    simp only [sanitize, noObj]
    exact noObjKVs_sanitizeKVs kvs
  | obj cn sr => simp [sanitize, noObj]

theorem noObjList_sanitizeList (xs : List PyVal) :
    noObjList (sanitizeList xs) = true := by
  cases xs with
  | nil => simp [sanitizeList, noObjList]
  | cons x xs =>
    simp only [sanitizeList, noObjList, Bool.and_eq_true]
    exact ⟨noObj_sanitize x, noObjList_sanitizeList xs⟩

theorem noObjKVs_sanitizeKVs (kvs : List (String × PyVal)) :
    noObjKVs (sanitizeKVs kvs) = true := by
  cases kvs with
  | nil => simp [sanitizeKVs, noObjKVs]
  | cons kv kvs =>
    simp only [sanitizeKVs, noObjKVs, Bool.and_eq_true]
    exact ⟨noObj_sanitize kv.2, noObjKVs_sanitizeKVs kvs⟩

end

mutual

theorem noObj_toPy (j : J) : noObj j.toPy = true := by
  cases j with
  | null => simp [J.toPy, noObj]
  | jb b => simp [J.toPy, noObj]
  | ji n => simp [J.toPy, noObj]
  | js s => simp [J.toPy, noObj]
  | ja xs =>
    simp only [J.toPy, noObj]
    exact noObjList_toPy xs
  | jo ms =>
    simp only [J.toPy, noObj]
    exact noObjKVs_toPy ms

theorem noObjList_toPy (xs : JList) : noObjList xs.toPy = true := by
  cases xs with
  | nil => simp [JList.toPy, noObjList]
  | cons hd tl =>
    simp only [JList.toPy, noObjList, Bool.and_eq_true]
    exact ⟨noObj_toPy hd, noObjList_toPy tl⟩

theorem noObjKVs_toPy (ms : JMembers) : noObjKVs ms.toPy = true := by
  cases ms with
  | nil => simp [JMembers.toPy, noObjKVs]
  | cons k v tl =>
    simp only [JMembers.toPy, noObjKVs, Bool.and_eq_true]
    exact ⟨noObj_toPy v, noObjKVs_toPy tl⟩

end

theorem json_loads_noObj (s : String) (v : PyVal) (h : json_loads s = some v) :
    noObj v = true := by
  rw [json_loads] at h
  split at h
  · next j rest heq =>
    split at h
    · injection h with h2
      rw [← h2]
      exact noObj_toPy j
    · exact absurd h (by simp)
  · exact absurd h (by simp)

theorem tryDump_ok (o : PyVal) : ∃ r, tryDump o = Except.ok r := by
  cases hd : json_dumpsE o with
  | ok r => exact ⟨r, by rw [tryDump, hd]⟩
  | error e =>
    exact ⟨renderJ 0 (sanitize o),
      by rw [tryDump, hd, json_dumpsE, if_pos (noObj_sanitize o)]⟩

theorem pprintE_exists (v : PyVal) : ∃ s, pprintE v = Except.ok s := by
  cases v with
  | str s =>
    rw [pprintE]
    by_cases hh : hasHtml s = true
    · rw [if_pos hh]
      exact ⟨_, rfl⟩
    · rw [if_neg hh]
      cases hl : json_loads s with
      | none => exact ⟨s, rfl⟩
      | some v' =>
        refine ⟨renderJ 0 v', ?_⟩
        show json_dumpsE v' = _
        rw [json_dumpsE, if_pos (json_loads_noObj s v' hl)]
  | dict kvs => exact tryDump_ok _
  | list xs => exact tryDump_ok _
  | int n => exact ⟨pyStr (.int n), rfl⟩
  | bool b => exact ⟨pyStr (.bool b), rfl⟩
  | none => exact ⟨pyStr .none, rfl⟩
  | obj cn sr => exact ⟨pyStr (.obj cn sr), rfl⟩

theorem pprintE_ok (v : PyVal) : pprintE v = Except.ok (pprint v) := by
  obtain ⟨s, hs⟩ := pprintE_exists v
  rw [hs, pprint, hs]

theorem pprintAllE_ok (msgs : List PyVal) :
    pprintAllE msgs = Except.ok (msgs.map pprint) := by
  induction msgs with
  | nil => rfl
  | cons m ms ih => simp [pprintAllE, pprintE_ok m, ih]

end LoggerPy

/-- C4: for every payload sequence and category, format_message returns a
composed string and never raises: the explicit exception-flow model always
succeeds, and an unserializable custom object is rendered by the fallback —
str(o) at top level and the "ClassName(value)" placeholder inside sanitized
containers — instead of propagating a failure. -/
theorem c4_format_message_never_raises :
    (∀ (msgs : List LoggerPy.PyVal) (mt ts : String),
      LoggerPy.format_messageE msgs mt ts =
        Except.ok (LoggerPy.format_message msgs mt ts)) ∧
    (∀ cn sr, LoggerPy.pprintE (LoggerPy.PyVal.obj cn sr) = Except.ok sr ∧
      LoggerPy.sanitize (LoggerPy.PyVal.obj cn sr) =
        LoggerPy.PyVal.str (cn ++ "(" ++ sr ++ ")")) := by
  constructor
  · intro msgs mt ts
    rw [LoggerPy.format_messageE, LoggerPy.pprintAllE_ok, LoggerPy.format_message]
  · intro cn sr
    exact ⟨rfl, by simp [LoggerPy.sanitize]⟩

namespace LoggerPy

theorem charsLe_total (a : List Char) : ∀ b, charsLe a b = true ∨ charsLe b a = true := by
  induction a with
  | nil => intro b; left; rfl
  | cons x as ih =>
    intro b
    cases b with
    | nil => right; rfl
    | cons y bs =>
      rcases lt_trichotomy x y with hlt | heq | hgt
      · left; simp [charsLe, hlt]
      · subst heq
        rcases ih bs with h | h
        · left; simp [charsLe, h]
        · right; simp [charsLe, h]
      · right; simp [charsLe, hgt]

theorem charsLe_antisymm (a : List Char) :
    ∀ b, charsLe a b = true → charsLe b a = true → a = b := by
  induction a with
  | nil =>
    intro b h1 h2
    cases b with
    | nil => rfl
    | cons y bs => exact absurd h2 (by simp [charsLe])
  | cons x as ih =>
    intro b h1 h2
    cases b with
    | nil => exact absurd h1 (by simp [charsLe])
    | cons y bs =>
      rcases lt_trichotomy x y with hlt | heq | hgt
      · rw [charsLe, if_neg (lt_asymm hlt), if_pos hlt] at h2
        exact absurd h2 (by simp)
      · subst heq
        rw [charsLe, if_neg (lt_irrefl x), if_neg (lt_irrefl x)] at h1
        rw [charsLe, if_neg (lt_irrefl x), if_neg (lt_irrefl x)] at h2
        rw [ih bs h1 h2]
      · rw [charsLe, if_neg (lt_asymm hgt), if_pos hgt] at h1
        exact absurd h1 (by simp)

theorem charsLe_trans (a : List Char) :
    ∀ b c, charsLe a b = true → charsLe b c = true → charsLe a c = true := by
  induction a with
  | nil => intro b c _ _; rfl
  | cons x as ih =>
    intro b c h1 h2
    cases b with
    | nil => exact absurd h1 (by simp [charsLe])
    | cons y bs =>
      cases c with
      | nil => exact absurd h2 (by simp [charsLe])
      | cons z cs =>
        rcases lt_trichotomy x y with hxy | hxy | hxy
        · rcases lt_trichotomy y z with hyz | hyz | hyz
          · simp [charsLe, lt_trans hxy hyz]
          · subst hyz; simp [charsLe, hxy]
          · rw [charsLe, if_neg (lt_asymm hyz), if_pos hyz] at h2
            exact absurd h2 (by simp)
        · subst hxy
          rw [charsLe, if_neg (lt_irrefl x), if_neg (lt_irrefl x)] at h1
          rcases lt_trichotomy x z with hyz | hyz | hyz
          · simp [charsLe, hyz]
          · subst hyz
            rw [charsLe, if_neg (lt_irrefl x), if_neg (lt_irrefl x)] at h2 ⊢
            exact ih bs cs h1 h2
          · rw [charsLe, if_neg (lt_asymm hyz), if_pos hyz] at h2
            exact absurd h2 (by simp)
        · rw [charsLe, if_neg (lt_asymm hxy), if_pos hxy] at h1
          exact absurd h1 (by simp)

theorem entryLe_total (p q : String × String) :
    entryLe p q = true ∨ entryLe q p = true :=
  charsLe_total p.1.data q.1.data

theorem entryLe_trans {p q r : String × String} (h1 : entryLe p q = true)
    (h2 : entryLe q r = true) : entryLe p r = true :=
  charsLe_trans p.1.data q.1.data r.1.data h1 h2

theorem string_data_ext {a b : String} (h : a.data = b.data) : a = b := by
  cases a
  cases b
  simp_all

theorem entryLe_antisymm_key {p q : String × String} (h1 : entryLe p q = true)
    (h2 : entryLe q p = true) : p.1 = q.1 :=
  string_data_ext (charsLe_antisymm p.1.data q.1.data h1 h2)

theorem insertEntry_perm (p : String × String) (l : List (String × String)) :
    (insertEntry p l).Perm (p :: l) := by
  induction l with
  | nil => exact List.Perm.refl _
  | cons q qs ih =>
    rw [insertEntry]
    split
    · exact List.Perm.refl _
    · exact (ih.cons q).trans (List.Perm.swap p q qs)

theorem sortEntries_perm (l : List (String × String)) :
    (sortEntries l).Perm l := by
  induction l with
  | nil => exact List.Perm.refl _
  | cons p ps ih =>
    rw [sortEntries]
    exact (insertEntry_perm p (sortEntries ps)).trans (ih.cons p)

theorem insertEntry_pairwise (p : String × String) (l : List (String × String))
    (hl : l.Pairwise (fun a b => entryLe a b = true)) :
    (insertEntry p l).Pairwise (fun a b => entryLe a b = true) := by
  induction l with
  | nil => simp [insertEntry]
  | cons q qs ih =>
    rw [insertEntry]
    split
    · next hpq =>
      refine List.Pairwise.cons ?_ hl
      intro x hx
      rcases List.mem_cons.mp hx with rfl | hx2
      · exact hpq
      · exact entryLe_trans hpq (List.rel_of_pairwise_cons hl hx2)
    · next hpq =>
      have hqp : entryLe q p = true := by
        rcases entryLe_total p q with h | h
        · exact absurd h hpq
        · exact h
      refine List.Pairwise.cons ?_ (ih hl.of_cons)
      intro x hx
      have hx' : x ∈ p :: qs := (insertEntry_perm p qs).subset hx
      rcases List.mem_cons.mp hx' with rfl | hx2
      · exact hqp
      · exact List.rel_of_pairwise_cons hl hx2

theorem sortEntries_pairwise (l : List (String × String)) :
    (sortEntries l).Pairwise (fun a b => entryLe a b = true) := by
  induction l with
  | nil => simp [sortEntries]
  | cons p ps ih =>
    rw [sortEntries]
    exact insertEntry_pairwise p (sortEntries ps) ih

theorem sorted_keyNodup_perm_eq :
    ∀ l1 l2 : List (String × String), l1.Perm l2 →
      l1.Pairwise (fun a b => entryLe a b = true) →
      l2.Pairwise (fun a b => entryLe a b = true) →
      (l1.map Prod.fst).Nodup → l1 = l2 := by
  intro l1
  induction l1 with
  | nil =>
    intro l2 hp _ _ _
    exact hp.nil_eq
  | cons a t1 ih =>
    intro l2 hp h1 h2 hn
    cases l2 with
    | nil => exact absurd hp.symm.nil_eq (by simp)
    | cons b t2 =>
      have hab : a = b := by
        have hbmem : b ∈ a :: t1 := hp.symm.subset (List.mem_cons_self b t2)
        rcases List.mem_cons.mp hbmem with rfl | hbt1
        · rfl
        · have hamem : a ∈ b :: t2 := hp.subset (List.mem_cons_self a t1)
          rcases List.mem_cons.mp hamem with rfl | hat2
          · rfl
          · have e1 : entryLe a b = true := List.rel_of_pairwise_cons h1 hbt1
            have e2 : entryLe b a = true := List.rel_of_pairwise_cons h2 hat2
            have hkey : a.1 = b.1 := entryLe_antisymm_key e1 e2
            exfalso
            rw [List.map_cons] at hn
            have hbk : b.1 ∈ t1.map Prod.fst := List.mem_map_of_mem Prod.fst hbt1
            rw [← hkey] at hbk
            exact (List.nodup_cons.mp hn).1 hbk
      subst hab
      have hn2 : (t1.map Prod.fst).Nodup := by
        rw [List.map_cons] at hn
        exact (List.nodup_cons.mp hn).2
      rw [ih t2 hp.cons_inv h1.of_cons h2.of_cons hn2]

theorem sortEntries_eq_of_perm (l1 l2 : List (String × String)) (hp : l1.Perm l2)
    (hn : (l1.map Prod.fst).Nodup) : sortEntries l1 = sortEntries l2 := by
  have p1 := sortEntries_perm l1
  have p2 := sortEntries_perm l2
  exact sorted_keyNodup_perm_eq _ _ (p1.trans (hp.trans p2.symm))
    (sortEntries_pairwise l1) (sortEntries_pairwise l2)
    (((p1.map Prod.fst).nodup_iff).mpr hn)

theorem renderKVs_map (lvl : Nat) (kvs : List (String × PyVal)) :
    renderKVs lvl kvs = kvs.map (fun kv => (kv.1, renderJ lvl kv.2)) := by
  induction kvs with
  | nil => rw [renderKVs]; rfl
  | cons kv kvs ih => rw [renderKVs, ih]; rfl

theorem sanitizeKVs_map (kvs : List (String × PyVal)) :
    sanitizeKVs kvs = kvs.map (fun kv => (kv.1, sanitize kv.2)) := by
  induction kvs with
  | nil => rw [sanitizeKVs]; rfl
  | cons kv kvs ih => rw [sanitizeKVs, ih]; rfl

theorem noObjKVs_all (kvs : List (String × PyVal)) :
    noObjKVs kvs = kvs.all (fun kv => noObj kv.2) := by
  induction kvs with
  | nil => rw [noObjKVs]; rfl
  | cons kv kvs ih => rw [noObjKVs, ih]; rfl

theorem renderJ_dict_eq (lvl : Nat) (kvs1 kvs2 : List (String × PyVal))
    (hp : kvs1.Perm kvs2) (hn : (kvs1.map Prod.fst).Nodup) :
    renderJ lvl (.dict kvs1) = renderJ lvl (.dict kvs2) := by
  cases kvs1 with
  | nil => rw [← hp.nil_eq]
  | cons kv1 t1 =>
    cases kvs2 with
    | nil => exact absurd hp.symm.nil_eq (by simp)
    | cons kv2 t2 =>
      rw [renderJ]
      rw [renderJ]
      have hr : sortEntries (renderKVs (lvl + 1) (kv1 :: t1)) =
          sortEntries (renderKVs (lvl + 1) (kv2 :: t2)) := by
        rw [renderKVs_map, renderKVs_map]
        apply sortEntries_eq_of_perm _ _ (hp.map _)
        rw [List.map_map]
        exact hn
      rw [hr]
end LoggerPy

namespace LoggerPy

theorem noObj_sanitize_dict (kvs : List (String × PyVal)) :
    noObj (PyVal.dict (sanitizeKVs kvs)) = true := by
  have h := noObj_sanitize (PyVal.dict kvs)
  rwa [sanitize] at h

theorem tryDump_dict_eq (kvs1 kvs2 : List (String × PyVal))
    (hp : kvs1.Perm kvs2) (hn : (kvs1.map Prod.fst).Nodup) :
    tryDump (PyVal.dict kvs1) = tryDump (PyVal.dict kvs2) := by
  have hno : noObj (PyVal.dict kvs1) = noObj (PyVal.dict kvs2) := by
    rw [noObj, noObj, noObjKVs_all, noObjKVs_all]
    exact perm_all hp _
  cases hb : noObj (PyVal.dict kvs1) with
  | true =>
    have hb2 : noObj (PyVal.dict kvs2) = true := by rw [← hno]; exact hb
    simp only [tryDump, json_dumpsE, hb, hb2, if_pos]
    rw [renderJ_dict_eq 0 kvs1 kvs2 hp hn]
  | false =>
    have hb2 : noObj (PyVal.dict kvs2) = false := by rw [← hno]; exact hb
    have hp' : (sanitizeKVs kvs1).Perm (sanitizeKVs kvs2) := by
      rw [sanitizeKVs_map, sanitizeKVs_map]
      exact hp.map _
    have hn' : ((sanitizeKVs kvs1).map Prod.fst).Nodup := by
      rw [sanitizeKVs_map, List.map_map]
      exact hn
    simp only [tryDump, json_dumpsE, hb, hb2, sanitize,
      noObj_sanitize_dict kvs1, noObj_sanitize_dict kvs2]
    rw [renderJ_dict_eq 0 (sanitizeKVs kvs1) (sanitizeKVs kvs2) hp' hn']
    simp

end LoggerPy

/-- C6: formatting a mapping payload is deterministic: two mapping payloads
with identical content (one a reordering of the other, with no duplicate
keys) produce byte-identical structured output, because the rendering orders
entries by sorted key independently of insertion order. -/
theorem c6_mapping_format_deterministic (kvs1 kvs2 : List (String × LoggerPy.PyVal))
    (hp : kvs1.Perm kvs2) (hn : (kvs1.map Prod.fst).Nodup) :
    LoggerPy.pprint (LoggerPy.PyVal.dict kvs1) =
      LoggerPy.pprint (LoggerPy.PyVal.dict kvs2) := by
  have he : LoggerPy.pprintE (LoggerPy.PyVal.dict kvs1) =
      LoggerPy.pprintE (LoggerPy.PyVal.dict kvs2) := by
    rw [LoggerPy.pprintE, LoggerPy.pprintE]
    exact LoggerPy.tryDump_dict_eq kvs1 kvs2 hp hn
  rw [LoggerPy.pprint, LoggerPy.pprint, he]

/-- Witness for C6: the two-key mapping in both insertion orders. -/
theorem c6_witness :
    LoggerPy.pprint (LoggerPy.PyVal.dict
      [("b", LoggerPy.PyVal.int 1), ("a", LoggerPy.PyVal.int 2)]) =
    LoggerPy.pprint (LoggerPy.PyVal.dict
      [("a", LoggerPy.PyVal.int 2), ("b", LoggerPy.PyVal.int 1)]) :=
  c6_mapping_format_deterministic _ _ (List.Perm.swap _ _ _) (by decide)
